import Mathlib

/-!
Verification of the Entry Lifecycle & Balance Engine of the FrontEnd-CS127
loan/expense tracker.  Definitions are shallow embeddings of the TypeScript
source: money is modelled as `ℚ`, JavaScript `Date` values as calendar
records with a millisecond-of-day component, and stateful mock services as
explicit state-passing functions.
-/

/-- A JavaScript `Date` value in canonical calendar form: `year`,
`month` (0-based, January = 0, as returned by `getMonth()`), `day`
(1-based, as returned by `getDate()`), and `ms`, the milliseconds elapsed
since local midnight (the time-of-day part zeroed by `setHours(0,0,0,0)`).
Comparing two canonical dates by their epoch timestamps is the same as
comparing `(year, month, day, ms)` lexicographically. -/
structure JSDate where
  year : Int
  month : Int
  day : Int
  ms : Nat
  deriving DecidableEq, Repr

/-- `d.setHours(0,0,0,0)`: normalize a date to local midnight. -/
def JSDate.setHours0 (d : JSDate) : JSDate := { d with ms := 0 }

/-- `a < b` on `Date` objects (epoch-timestamp order), expressed as the
lexicographic order on canonical calendar components. -/
def JSDate.ltB (a b : JSDate) : Bool :=
  if a.year ≠ b.year then decide (a.year < b.year)
  else if a.month ≠ b.month then decide (a.month < b.month)
  else if a.day ≠ b.day then decide (a.day < b.day)
  else decide (a.ms < b.ms)

/-- `a >= b` on `Date` objects: the negation of `a < b` in the total
timestamp order. -/
def JSDate.geB (a b : JSDate) : Bool := !(JSDate.ltB a b)

/-- A calendar day with the time of day forgotten: the day-granularity view
of a date that the spec's status rules are stated over. -/
structure DayDate where
  year : Int
  month : Int
  day : Int
  deriving DecidableEq, Repr

/-- Forget the time-of-day component of a date. -/
def JSDate.dayOf (d : JSDate) : DayDate := ⟨d.year, d.month, d.day⟩

/-- Lexicographic (chronological) order on calendar days. -/
def DayDate.ltB (a b : DayDate) : Bool :=
  if a.year ≠ b.year then decide (a.year < b.year)
  else if a.month ≠ b.month then decide (a.month < b.month)
  else decide (a.day < b.day)

/-- The `InstallmentStatus` enum of `src/types/index.ts`. -/
inductive InstallmentStatus where
  | NOT_STARTED
  | UNPAID
  | PAID
  | SKIPPED
  | DELINQUENT
  deriving DecidableEq, Repr

/-- The `InstallmentTerm` interface of `src/types/index.ts`.  The optional
boolean fields `skipped` and `delinquent` are modelled as `Bool` (JavaScript
treats an absent field as falsy); `paymentDate` is optional.  `createdAt`
and `updatedAt` style bookkeeping is absent in the source interface. -/
structure InstallmentTerm where
  termNumber : Nat
  dueDate : JSDate
  status : InstallmentStatus
  paymentDate : Option JSDate
  skipped : Bool
  delinquent : Bool
  notes : String
  deriving DecidableEq, Repr

/-- The installment-term status derivation of `EntryDetails.tsx`
(lines 560-606): `today`, the installment start date and the term due date
are normalized with `setHours(0,0,0,0)`, then the first matching rule wins:

1. `today < installmentStartDate` gives `NOT_STARTED`;
2. `term.status === PAID` keeps `PAID`;
3. `term.status === SKIPPED || term.skipped` gives `SKIPPED`;
4. `term.paymentDate` present gives `PAID`;
5. `today < termDueDate` gives `NOT_STARTED`;
6. `today >= termDueDate` gives `UNPAID` on the exact due day
   (`getTime()` equality) and `DELINQUENT` after it;
7. the fallback is `UNPAID`. -/
def termDisplayStatus (startDate : JSDate) (term : InstallmentTerm)
    (now : JSDate) : InstallmentStatus :=
  let today := now.setHours0
  let installmentStartDate := startDate.setHours0
  let termDueDate := term.dueDate.setHours0
  if today.ltB installmentStartDate then .NOT_STARTED
  else if term.status = .PAID then .PAID
  else if term.status = .SKIPPED ∨ term.skipped = true then .SKIPPED
  else if term.paymentDate.isSome then .PAID
  else if today.ltB termDueDate then .NOT_STARTED
  else if today.geB termDueDate then
    (if today = termDueDate then .UNPAID else .DELINQUENT)
  else .UNPAID

/-- The claim's rule list, verbatim: a pure function of (start day, due
day, presence of a recorded payment, skipped flag, today's day), evaluated
in strict priority order with the recorded-payment rule BEFORE the skipped
rule: (1) today before start?  NOT_STARTED; (2) payment recorded?  PAID;
(3) skipped?  SKIPPED; (4) today before due?  NOT_STARTED; (5) today equal
to due?  UNPAID; (6) today strictly after due?  DELINQUENT; (7) UNPAID. -/
def termStatusClaim (startDay dueDay : DayDate) (hasPayment skippedFlag : Bool)
    (todayDay : DayDate) : InstallmentStatus :=
  if DayDate.ltB todayDay startDay then .NOT_STARTED
  else if hasPayment then .PAID
  else if skippedFlag then .SKIPPED
  else if DayDate.ltB todayDay dueDay then .NOT_STARTED
  else if todayDay = dueDay then .UNPAID
  else if DayDate.ltB dueDay todayDay then .DELINQUENT
  else .UNPAID

/-- The amended rule list actually implemented by the code: a pure function
of (start day, due day, stored term status, presence of a `paymentDate`,
skipped flag, today's day) at calendar-day granularity, first match wins:
(1) today before start?  NOT_STARTED; (2) stored status PAID?  PAID;
(3) stored status SKIPPED or skipped flag?  SKIPPED; (4) `paymentDate`
recorded?  PAID; (5) today before due?  NOT_STARTED; (6) today equal to
due?  UNPAID; (7) today strictly after due?  DELINQUENT; (8) UNPAID. -/
def termStatusAmended (startDay dueDay : DayDate) (storedStatus : InstallmentStatus)
    (hasPaymentDate skippedFlag : Bool) (todayDay : DayDate) : InstallmentStatus :=
  if DayDate.ltB todayDay startDay then .NOT_STARTED
  else if storedStatus = .PAID then .PAID
  else if storedStatus = .SKIPPED ∨ skippedFlag = true then .SKIPPED
  else if hasPaymentDate then .PAID
  else if DayDate.ltB todayDay dueDay then .NOT_STARTED
  else if todayDay = dueDay then .UNPAID
  else if DayDate.ltB dueDay todayDay then .DELINQUENT
  else .UNPAID

/-- Which actions the installment-term table of `EntryDetails.tsx`
(lines 667-679) offers for a term, as a function of its derived status. -/
structure TermActions where
  canPay : Bool
  canSkip : Bool
  deriving DecidableEq, Repr

/-- The action buttons rendered per derived term status: `UNPAID` gets
"Add Payment" and "Skip Term", `DELINQUENT` gets only "Pay Now", and
`SKIPPED`, `PAID` and `NOT_STARTED` get no action buttons. -/
def termActionButtons : InstallmentStatus → TermActions
  | .UNPAID => ⟨true, true⟩
  | .DELINQUENT => ⟨true, false⟩
  | .SKIPPED => ⟨false, false⟩
  | .PAID => ⟨false, false⟩
  | .NOT_STARTED => ⟨false, false⟩

/-- The `PaymentFrequency` enum of `src/types/index.ts`
(`'Monthly'` / `'Weekly'`). -/
inductive PaymentFrequency where
  | Monthly
  | Weekly
  deriving DecidableEq, Repr

/-- Gregorian leap-year test, as used by JavaScript date normalization. -/
def isLeapYear (y : Int) : Bool := (y % 4 == 0 && y % 100 != 0) || y % 400 == 0

/-- Number of days of month `m` (0-based) of year `y`. -/
def daysInMonth (y m : Int) : Int :=
  if m = 1 then (if isLeapYear y then 29 else 28)
  else if m = 3 ∨ m = 5 ∨ m = 8 ∨ m = 10 then 30
  else 31

/-- `d.setMonth(d.getMonth() + 1)` on a canonical date: the month is
advanced by one (rolling the year over from December), the day of month is
kept, and a day-of-month overflow (e.g. Jan 31 to "Feb 31") is normalized
by rolling the excess days into the following month, exactly as JavaScript
does.  One normalization step suffices for canonical input, since
`day ≤ 31` and every month has at least 28 days. -/
def addOneMonth (d : JSDate) : JSDate :=
  let y1 := if d.month = 11 then d.year + 1 else d.year
  let m1 := if d.month = 11 then 0 else d.month + 1
  if d.day > daysInMonth y1 m1 then
    let y2 := if m1 = 11 then y1 + 1 else y1
    let m2 := if m1 = 11 then 0 else m1 + 1
    { year := y2, month := m2, day := d.day - daysInMonth y1 m1, ms := d.ms }
  else
    { year := y1, month := m1, day := d.day, ms := d.ms }

/-- `d.setDate(d.getDate() + 7)` on a canonical date: the day of month is
advanced by seven, rolling into the following month (and year) when the
month's length is exceeded.  One normalization step suffices for canonical
input. -/
def addSevenDays (d : JSDate) : JSDate :=
  if d.day + 7 > daysInMonth d.year d.month then
    let y1 := if d.month = 11 then d.year + 1 else d.year
    let m1 := if d.month = 11 then 0 else d.month + 1
    { year := y1, month := m1, day := d.day + 7 - daysInMonth d.year d.month,
      ms := d.ms }
  else { d with day := d.day + 7 }

/-- The due-date advancement of `handleSkipInstallmentTerm`
(`EntryDetails.tsx` lines 55-60): `setMonth(+1)` when the payment
frequency is `'Monthly'`, `setDate(+7)` when it is `'Weekly'`. -/
def advanceByFrequency (freq : PaymentFrequency) (d : JSDate) : JSDate :=
  match freq with
  | .Monthly => addOneMonth d
  | .Weekly => addSevenDays d

/-- The `InstallmentDetails` interface of `src/types/index.ts`
(`createdAt` / `updatedAt` bookkeeping omitted). -/
structure InstallmentDetails where
  id : String
  entryId : String
  startDate : JSDate
  paymentFrequency : PaymentFrequency
  paymentTerms : Nat
  paymentAmountPerTerm : ℚ
  terms : List InstallmentTerm
  notes : String
  deriving DecidableEq, Repr

/-- `handleSkipInstallmentTerm` of `EntryDetails.tsx` (lines 37-95): mark
term `termIdx` as skipped (status `SKIPPED`, `skipped := true`, keeping its
position), then append one new term whose due date is the last term's due
date advanced by one frequency unit and normalized to midnight, with status
`NOT_STARTED`, no payment, and empty notes; `paymentTerms` becomes the new
term count.  On an empty term list JavaScript would fault reading
`lastTerm.dueDate`; that unreachable case is modelled as the identity. -/
def handleSkipInstallmentTerm (details : InstallmentDetails) (termIdx : Nat) :
    InstallmentDetails :=
  let updatedTerms := details.terms.mapIdx fun i t =>
    if i = termIdx then { t with skipped := true, status := InstallmentStatus.SKIPPED }
    else t
  match updatedTerms.getLast? with
  | none => details
  | some lastTerm =>
      let newDueDate := (advanceByFrequency details.paymentFrequency lastTerm.dueDate).setHours0
      let newTerm : InstallmentTerm :=
        { termNumber := updatedTerms.length + 1, dueDate := newDueDate,
          status := .NOT_STARTED, paymentDate := none, skipped := false,
          delinquent := false, notes := "" }
      { details with terms := updatedTerms ++ [newTerm],
                     paymentTerms := updatedTerms.length + 1 }

/-- The `PaymentStatus` enum of `src/types/index.ts`. -/
inductive PaymentStatus where
  | UNPAID
  | PARTIALLY_PAID
  | PAID
  deriving DecidableEq, Repr

/-- A payment of the in-memory mock ledger (`paymentMockService` in
`src/services/api.ts`): the fields that drive the entry update.  `payee`,
dates, notes and proof attachments do not influence the balance logic. -/
structure MockPayment where
  id : Nat
  entryId : String
  paymentAmount : ℚ
  deriving DecidableEq, Repr

/-- An entry as seen by the mock services: the balance-relevant fields of
the `Entry` interface of `src/types/index.ts`. -/
structure MockEntry where
  id : String
  amountBorrowed : ℚ
  amountRemaining : ℚ
  status : PaymentStatus
  dateFullyPaid : Option JSDate
  deriving DecidableEq, Repr

/-- The mutable module state of the mock services: the global `payments`
array with its id counter, and the entry store behind `entryMockService`. -/
structure MockStore where
  payments : List MockPayment
  entries : List MockEntry
  nextPaymentId : Nat
  deriving DecidableEq, Repr

/-- Modelled from the spec: `entryMockService.getById` (the module
`src/services/entryMockService` is imported by the mock payment service but
is not under `src/`) — a CRUD read keyed by the entry's opaque id. -/
def entryGetById (entries : List MockEntry) (id : String) : Option MockEntry :=
  entries.find? (fun e => e.id == id)

/-- Modelled from the spec: `entryMockService.update` (not under `src/`) —
a CRUD update keyed by the opaque id that merges the provided fields into
the stored record.  `paymentMockService` passes exactly
`{ amountRemaining, status }`, so only those two fields change. -/
def entryUpdateRemainingStatus (entries : List MockEntry) (id : String)
    (amountRemaining : ℚ) (status : PaymentStatus) : List MockEntry :=
  entries.map fun e =>
    if e.id == id then { e with amountRemaining := amountRemaining, status := status }
    else e

/-- `paymentMockService.create` (`src/services/api.ts` lines 617-641):
append the new payment (with the next generated id), then, when its
`entryId` is truthy and the entry exists, recompute the entry's
`amountRemaining = max(0, amountBorrowed - totalPaid)` over all payments
recorded against that entry and its status
(`PAID` / `PARTIALLY_PAID` / `UNPAID`), and store them. -/
def paymentCreate (s : MockStore) (entryId : String) (paymentAmount : ℚ) :
    MockStore :=
  let newPayment : MockPayment :=
    { id := s.nextPaymentId, entryId := entryId, paymentAmount := paymentAmount }
  let payments1 := s.payments ++ [newPayment]
  let s1 : MockStore :=
    { s with payments := payments1, nextPaymentId := s.nextPaymentId + 1 }
  if entryId ≠ "" then
    match entryGetById s1.entries entryId with
    | some entry =>
        let allPayments := payments1.filter (fun p => p.entryId == entryId)
        let totalPaid := (allPayments.map (fun p => p.paymentAmount)).sum
        let amountRemaining := max 0 (entry.amountBorrowed - totalPaid)
        let status : PaymentStatus :=
          if amountRemaining = 0 then .PAID
          else if amountRemaining < entry.amountBorrowed then .PARTIALLY_PAID
          else .UNPAID
        { s1 with entries := entryUpdateRemainingStatus s1.entries entry.id amountRemaining status }
    | none => s1
  else s1

/-- `paymentMockService.delete` (`src/services/api.ts` lines 650-675):
find the payment by id (no change when absent), remove it, then, when its
`entryId` is truthy and the entry exists, recompute the entry's
`amountRemaining` and status over the remaining payments exactly as in
`paymentCreate`. -/
def paymentDelete (s : MockStore) (id : Nat) : MockStore :=
  match s.payments.findIdx? (fun p => p.id == id) with
  | none => s
  | some idx =>
      match s.payments[idx]? with
      | none => s
      | some paymentToDelete =>
          let entryId := paymentToDelete.entryId
          let payments1 := s.payments.eraseIdx idx
          let s1 : MockStore := { s with payments := payments1 }
          if entryId ≠ "" then
            match entryGetById s1.entries entryId with
            | some entry =>
                let allPayments := payments1.filter (fun p => p.entryId == entryId)
                let totalPaid := (allPayments.map (fun p => p.paymentAmount)).sum
                let amountRemaining := max 0 (entry.amountBorrowed - totalPaid)
                let status : PaymentStatus :=
                  if amountRemaining = 0 then .PAID
                  else if amountRemaining < entry.amountBorrowed then .PARTIALLY_PAID
                  else .UNPAID
                { s1 with entries := entryUpdateRemainingStatus s1.entries entry.id amountRemaining status }
            | none => s1
          else s1

/-- Sum of the amounts of the payments currently recorded against entry
`eid` (the `filter` + `reduce` of the mock service's recompute block). -/
def totalPaymentsFor (payments : List MockPayment) (eid : String) : ℚ :=
  ((payments.filter (fun p => p.entryId == eid)).map (fun p => p.paymentAmount)).sum

/-- The claim's three-way status threshold: `PAID` when nothing remains,
`PARTIALLY_PAID` strictly between 0 and the borrowed amount, `UNPAID`
otherwise. -/
def claimStatus (amountRemaining amountBorrowed : ℚ) : PaymentStatus :=
  if amountRemaining = 0 then .PAID
  else if 0 < amountRemaining ∧ amountRemaining < amountBorrowed then .PARTIALLY_PAID
  else .UNPAID

/-- The claim's balance invariant for entry `eid`, decidably: whenever the
entry is present, its `amountRemaining` is `max 0 (borrowed - totalPaid)`
and its status matches `claimStatus`.  (Trivially true when absent.) -/
def entryBalanceInvariantB (s : MockStore) (eid : String) : Bool :=
  match entryGetById s.entries eid with
  | some e =>
      decide (e.amountRemaining = max 0 (e.amountBorrowed - totalPaymentsFor s.payments eid))
        && decide (e.status = claimStatus e.amountRemaining e.amountBorrowed)
  | none => true

/-- A single mock-ledger operation: a payment creation (with the payment's
`entryId` and amount) or a payment deletion (by payment id). -/
inductive PaymentOp where
  | create (entryId : String) (amount : ℚ)
  | delete (id : Nat)
  deriving DecidableEq, Repr

/-- Apply one mock-ledger operation to the store. -/
def applyPaymentOp (s : MockStore) : PaymentOp → MockStore
  | .create entryId amount => paymentCreate s entryId amount
  | .delete id => paymentDelete s id

/-- The operation is applied to entry `eid`: a creation carries
`entryId = eid`, a deletion removes a payment recorded against `eid`. -/
def opTargetsEntry (s : MockStore) (op : PaymentOp) (eid : String) : Prop :=
  match op with
  | .create entryId _ => entryId = eid
  | .delete id =>
      ∃ idx p, s.payments.findIdx? (fun q => q.id == id) = some idx ∧
        s.payments[idx]? = some p ∧ p.entryId = eid

/-- Outcome of submitting the payment form: a validation error message
(form kept open, no payment created), or a created payment carrying the
submitted amount. -/
inductive SubmitResult where
  | error (msg : String)
  | created (amount : ℚ)
  deriving DecidableEq, Repr

/-- The inputs of `CreatePaymentModal.handleSubmit`: `personId` is the
payee select value (empty string when none chosen); `paymentAmount` is the
parsed numeric value of the amount field (`none` for an empty or
non-numeric field); `maxPaymentAmount` is the allocation cap prop
(`amount - amountPaid`, `undefined` i.e. `none` when not paying a group
allocation); `maxAmount` is the entry's fetched `amountRemaining` (`null`
i.e. `none` until the fetch succeeds); `payeeFound` says whether the
selected id matches someone in the `people` list. -/
structure PaymentFormState where
  personId : String
  paymentAmount : Option ℚ
  maxPaymentAmount : Option ℚ
  maxAmount : Option ℚ
  payeeFound : Bool
  deriving DecidableEq, Repr

/-- `CreatePaymentModal.handleSubmit` (`CreatePaymentModal.tsx` lines
87-133): reject an empty payee, then a non-numeric or non-positive amount,
then an amount exceeding `effectiveMaxAmount` (`maxPaymentAmount` when the
prop was provided, otherwise the fetched `maxAmount`), then an unknown
payee; otherwise the payment is created. -/
def handleSubmitPayment (f : PaymentFormState) : SubmitResult :=
  if f.personId = "" then .error "Payee is required."
  else
    match f.paymentAmount with
    | none => .error "Amount must be a positive number."
    | some amount =>
      if amount ≤ 0 then .error "Amount must be a positive number."
      else
        let effectiveMaxAmount :=
          match f.maxPaymentAmount with
          | some m => some m
          | none => f.maxAmount
        match effectiveMaxAmount with
        | some m =>
            if amount > m then .error "Amount cannot exceed remaining balance"
            else if f.payeeFound then .created amount
            else .error "Payee not found."
        | none =>
            if f.payeeFound then .created amount
            else .error "Payee not found."

/-- The amount input's `onChange` handler (`CreatePaymentModal.tsx` lines
183-190): a typed value above `effectiveMaxAmount` is clamped down to that
cap; otherwise it is kept. -/
def clampAmountInput (maxPaymentAmount maxAmount : Option ℚ) (value : ℚ) : ℚ :=
  let effectiveMaxAmount :=
    match maxPaymentAmount with
    | some m => some m
    | none => maxAmount
  match effectiveMaxAmount with
  | some m => if value > m then m else value
  | none => value

/-- `+(x).toFixed(2)`: round to 2 decimal places (ties away from zero; for
the nonnegative values used here this is `round (x * 100) / 100`). -/
def round2 (x : ℚ) : ℚ := ((round (x * 100) : ℤ) : ℚ) / 100

/-- `Math.ceil(x * 100) / 100`: round up to the cent. -/
def ceilCents (x : ℚ) : ℚ := ((⌈x * 100⌉ : ℤ) : ℚ) / 100

/-- One row of the modal's `paymentAllocations` state.  The identity
plumbing of the source rows (`groupMemberDto`, `borrowerGroupId`,
`groupExpenseEntryId`, `allocationId`, `paymentAllocationStatus`) is
constants or copies irrelevant to the split arithmetic and is reduced to
the member's person id. -/
structure AllocRow where
  groupMemberPersonId : Nat
  amount : ℚ
  amountPaid : ℚ
  percent : ℚ
  description : String
  notes : String
  deriving DecidableEq, Repr

/-- The equal-split branch of the allocation effect
(`CreatePaymentModal.tsx` lines 356-384): every member receives
`amountPerPerson = Math.ceil((amt / memberCount) * 100) / 100` and
`percent = +((amountPerPerson / amt) * 100).toFixed(2)`. -/
def equalSplitAllocations (amt : ℚ) (groupMembers : List Nat) : List AllocRow :=
  let memberCount := groupMembers.length
  let amountPerPerson := ceilCents (amt / memberCount)
  groupMembers.map fun m =>
    { groupMemberPersonId := m, amount := amountPerPerson, amountPaid := 0,
      percent := round2 (amountPerPerson / amt * 100),
      description := "", notes := "" }

/-- Sum of the amounts assigned by an allocation list. -/
def allocationsAmountSum (allocs : List AllocRow) : ℚ :=
  (allocs.map (fun a => a.amount)).sum

/-- The per-member amount edit (amount mode, `CreatePaymentModal.tsx`
lines 737-751): row `i` gets the typed amount and
`percent = totalAmount > 0 ? round((amount / totalAmount) * 100, 2) : 0`;
every other row is returned unchanged. -/
def editMemberAmount (allocs : List AllocRow) (i : Nat) (value totalAmount : ℚ) :
    List AllocRow :=
  let newAmount := value
  let newPercent := if 0 < totalAmount then round2 (newAmount / totalAmount * 100) else 0
  allocs.mapIdx fun j a =>
    if j = i then { a with amount := newAmount, percent := newPercent } else a

/-- The per-member percent edit (percent mode, `CreatePaymentModal.tsx`
lines 756-771): row `i` gets the typed percent and
`amount = round(totalAmount * (percent / 100), 2)`; every other row is
returned unchanged. -/
def editMemberPercent (allocs : List AllocRow) (i : Nat) (value totalAmount : ℚ) :
    List AllocRow :=
  let newPercent := value
  let newAmount := round2 (totalAmount * (newPercent / 100))
  allocs.mapIdx fun j a =>
    if j = i then { a with percent := newPercent, amount := newAmount } else a

/-- The controls of the entry create/edit form (`CreateEntryModal`). -/
inductive EntryFormField where
  | entryName
  | description
  | transactionType
  | borrower
  | lender
  | amountBorrowed
  | dateBorrowed
  | dateFullyPaid
  | notes
  | installmentStartDate
  | paymentFrequency
  | paymentTerms
  | paymentAmountPerTerm
  | allocationMode
  deriving DecidableEq, Repr

/-- The `disabled` attribute of each control of `CreateEntryModal`
(`CreatePaymentModal.tsx` lines 558-716): the transaction-type select and
the amount-per-term input carry `disabled={isEditing}`; the borrower
select, amount-borrowed input, installment start date, payment frequency,
payment terms and the allocation-mode radios carry
`disabled={hasPayments}`; the date-fully-paid input is always disabled
(derived field); name, description, notes, date borrowed and the lender
select have no `disabled` attribute.  A disabled control accepts no change
whatever the values of the other fields. -/
def entryFieldDisabled (isEditing hasPayments : Bool) : EntryFormField → Bool
  | .entryName => false
  | .description => false
  | .transactionType => isEditing
  | .borrower => hasPayments
  | .lender => false
  | .amountBorrowed => hasPayments
  | .dateBorrowed => false
  | .dateFullyPaid => true
  | .notes => false
  | .installmentStartDate => hasPayments
  | .paymentFrequency => hasPayments
  | .paymentTerms => hasPayments
  | .paymentAmountPerTerm => isEditing
  | .allocationMode => hasPayments

theorem JSDate.ltB_setHours0 (a b : JSDate) :
    JSDate.ltB a.setHours0 b.setHours0 = DayDate.ltB a.dayOf b.dayOf := by
  simp only [JSDate.ltB, DayDate.ltB, JSDate.setHours0, JSDate.dayOf]
  by_cases h1 : a.year = b.year <;> by_cases h2 : a.month = b.month <;>
    by_cases h3 : a.day = b.day <;> simp [h1, h2, h3]

theorem JSDate.setHours0_eq_iff (a b : JSDate) :
    a.setHours0 = b.setHours0 ↔ a.dayOf = b.dayOf := by
  cases a; cases b
  simp [JSDate.setHours0, JSDate.dayOf, JSDate.mk.injEq, DayDate.mk.injEq]

theorem DayDate.ltB_iff (a b : DayDate) :
    DayDate.ltB a b = true ↔
      a.year < b.year ∨ (a.year = b.year ∧ a.month < b.month) ∨
        (a.year = b.year ∧ a.month = b.month ∧ a.day < b.day) := by
  simp only [DayDate.ltB]
  split_ifs with h1 h2 <;> simp <;> omega

theorem DayDate.ltB_total (a b : DayDate) (h1 : DayDate.ltB a b = false)
    (h2 : a ≠ b) : DayDate.ltB b a = true := by
  obtain ⟨ay, am, ad⟩ := a
  obtain ⟨cy, cm, cd⟩ := b
  rw [Bool.eq_false_iff, ne_eq, DayDate.ltB_iff] at h1
  rw [DayDate.ltB_iff]
  simp only [ne_eq, DayDate.mk.injEq, not_and] at h2
  simp only [not_or, not_and, not_lt] at h1
  by_cases e1 : ay = cy <;> by_cases e2 : am = cm <;> simp_all <;> omega

/-- C1 (amended): the displayed installment-term status is a pure function
of (start day, due day, stored term status, recorded `paymentDate`
presence, skipped flag, today's day) — the time-of-day components of all
three dates are normalized away — computed by the amended priority list in
`termStatusAmended`, in which the skipped check precedes the
recorded-`paymentDate` check (with a stored `PAID` status still winning
over both).  The claim's three concrete examples hold: for
start 2024-01-01, due 2024-02-01, no payment, not skipped, today
2024-02-01 shows `UNPAID`, today 2024-02-02 shows `DELINQUENT`, and today
2023-12-31 shows `NOT_STARTED`. -/
theorem C1_term_status_amended :
    (∀ (startDate : JSDate) (term : InstallmentTerm) (now : JSDate),
      termDisplayStatus startDate term now =
        termStatusAmended startDate.dayOf term.dueDate.dayOf term.status
          term.paymentDate.isSome term.skipped now.dayOf) ∧
    termDisplayStatus ⟨2024, 0, 1, 0⟩
      ⟨1, ⟨2024, 1, 1, 0⟩, .NOT_STARTED, none, false, false, ""⟩
      ⟨2024, 1, 1, 0⟩ = .UNPAID ∧
    termDisplayStatus ⟨2024, 0, 1, 0⟩
      ⟨1, ⟨2024, 1, 1, 0⟩, .NOT_STARTED, none, false, false, ""⟩
      ⟨2024, 1, 2, 0⟩ = .DELINQUENT ∧
    termDisplayStatus ⟨2024, 0, 1, 0⟩
      ⟨1, ⟨2024, 1, 1, 0⟩, .NOT_STARTED, none, false, false, ""⟩
      ⟨2023, 11, 31, 0⟩ = .NOT_STARTED := by
  refine ⟨?_, by decide, by decide, by decide⟩
  intro startDate term now
  unfold termDisplayStatus termStatusAmended JSDate.geB
  simp only [JSDate.ltB_setHours0, JSDate.setHours0_eq_iff]
  split_ifs with h1 h2 h3 h4 h5 h6 h7 h8 <;> try rfl
  · exact absurd (DayDate.ltB_total _ _ (Bool.eq_false_iff.mpr h5) h7) h8
  · exact h6 (by simp [Bool.eq_false_iff.mpr h5])

/-- C1 counterexample: a term carrying both a recorded payment
(`paymentDate` present) and the skipped flag is displayed as `SKIPPED` by
the code, while the claim's priority order (recorded payment at rule 2,
before the skipped check at rule 3) dictates `PAID`. -/
theorem C1_counterexample :
    termDisplayStatus ⟨2024, 0, 1, 0⟩
        ⟨2, ⟨2024, 1, 1, 0⟩, .UNPAID, some ⟨2024, 0, 10, 0⟩, true, false, ""⟩
        ⟨2024, 0, 15, 0⟩ = .SKIPPED ∧
    (some (⟨2024, 0, 10, 0⟩ : JSDate)).isSome = true ∧
    termStatusClaim ⟨2024, 0, 1⟩ ⟨2024, 1, 1⟩ true true ⟨2024, 0, 15⟩ = .PAID ∧
    InstallmentStatus.SKIPPED ≠ InstallmentStatus.PAID := by decide

/-- C7 counterexample: for a term whose derived status is `DELINQUENT` the
code offers a payment action but NO skip action, while the claim says a
`DELINQUENT` term may be paid or skipped. -/
theorem C7_counterexample :
    termActionButtons .DELINQUENT = ⟨true, false⟩ ∧
    (termActionButtons .DELINQUENT).canSkip ≠ true := by decide

/-- C7 (amended): actions depend only on the derived status: `UNPAID`
offers record-payment and skip; `DELINQUENT` offers record-payment only;
`NOT_STARTED`, `PAID` and `SKIPPED` offer neither. -/
theorem C7_term_actions_amended :
    termActionButtons .UNPAID = ⟨true, true⟩ ∧
    termActionButtons .DELINQUENT = ⟨true, false⟩ ∧
    termActionButtons .NOT_STARTED = ⟨false, false⟩ ∧
    termActionButtons .PAID = ⟨false, false⟩ ∧
    termActionButtons .SKIPPED = ⟨false, false⟩ := by decide

theorem addOneMonth_of_day_le_28 (d : JSDate) (h1 : 1 ≤ d.day) (h2 : d.day ≤ 28) :
    addOneMonth d = ⟨if d.month = 11 then d.year + 1 else d.year,
                     if d.month = 11 then 0 else d.month + 1, d.day, d.ms⟩ := by
  have hdim : ∀ y m : Int, 28 ≤ daysInMonth y m := by
    intro y m
    unfold daysInMonth
    split_ifs <;> omega
  unfold addOneMonth
  have := hdim (if d.month = 11 then d.year + 1 else d.year)
    (if d.month = 11 then 0 else d.month + 1)
  rw [if_neg (by omega)]

theorem addSevenDays_of_fits (d : JSDate)
    (h : d.day + 7 ≤ daysInMonth d.year d.month) :
    addSevenDays d = { d with day := d.day + 7 } := by
  unfold addSevenDays
  rw [if_neg (by omega)]

/-- C3: for `termIdx` within range, skipping a term produces: one more
term in total (and `paymentTerms` equal to the new count); every other
term unchanged in place; the skipped term kept at its position with only
`skipped := true` and status `SKIPPED`; an appended final term numbered
`oldCount + 1` whose due date is the previous last term's due date advanced
by one payment-frequency unit (+1 month for `Monthly`, +7 days for
`Weekly`) and normalized to midnight, with status `NOT_STARTED` and empty
notes; and contiguous 1-based term numbering is preserved. -/
theorem C3_skip_appends_one_term (details : InstallmentDetails) (termIdx : Nat)
    (hidx : termIdx < details.terms.length) :
    (handleSkipInstallmentTerm details termIdx).terms.length = details.terms.length + 1 ∧
    (handleSkipInstallmentTerm details termIdx).paymentTerms = details.terms.length + 1 ∧
    (∀ j, j < details.terms.length → j ≠ termIdx →
      (handleSkipInstallmentTerm details termIdx).terms[j]? = details.terms[j]?) ∧
    (handleSkipInstallmentTerm details termIdx).terms[termIdx]? =
      (details.terms[termIdx]?).map
        (fun t => { t with skipped := true, status := InstallmentStatus.SKIPPED }) ∧
    (∀ lastT, details.terms.getLast? = some lastT →
      (handleSkipInstallmentTerm details termIdx).terms.getLast? = some
        ⟨details.terms.length + 1,
         (advanceByFrequency details.paymentFrequency lastT.dueDate).setHours0,
         .NOT_STARTED, none, false, false, ""⟩) ∧
    ((∀ j t, details.terms[j]? = some t → t.termNumber = j + 1) →
      ∀ j t, (handleSkipInstallmentTerm details termIdx).terms[j]? = some t →
        t.termNumber = j + 1) := by
  have hlen0 : 0 < details.terms.length := Nat.lt_of_le_of_lt (Nat.zero_le _) hidx
  obtain ⟨lastT0, hlast0⟩ : ∃ t, details.terms.getLast? = some t := by
    rw [List.getLast?_eq_getElem?]
    exact ⟨_, List.getElem?_eq_getElem (by omega)⟩
  have hofl : (details.terms.mapIdx fun i t =>
      if i = termIdx then { t with skipped := true, status := InstallmentStatus.SKIPPED }
      else t).getLast? =
      some (if details.terms.length - 1 = termIdx
            then { lastT0 with skipped := true, status := InstallmentStatus.SKIPPED }
            else lastT0) := by
    rw [List.getLast?_eq_getElem?, List.length_mapIdx, List.getElem?_mapIdx]
    rw [List.getLast?_eq_getElem?] at hlast0
    rw [hlast0]
    rfl
  have hdue : (if details.terms.length - 1 = termIdx
      then { lastT0 with skipped := true, status := InstallmentStatus.SKIPPED }
      else lastT0).dueDate = lastT0.dueDate := by split <;> rfl
  have key : handleSkipInstallmentTerm details termIdx =
      { details with
        terms := (details.terms.mapIdx fun i t =>
            if i = termIdx then { t with skipped := true, status := InstallmentStatus.SKIPPED }
            else t)
          ++ [{ termNumber := details.terms.length + 1,
                dueDate := (advanceByFrequency details.paymentFrequency lastT0.dueDate).setHours0,
                status := .NOT_STARTED, paymentDate := none, skipped := false,
                delinquent := false, notes := "" }],
        paymentTerms := details.terms.length + 1 } := by
    unfold handleSkipInstallmentTerm
    simp only [hofl, hdue, List.length_mapIdx]
  refine ⟨?_, ?_, ?_, ?_, ?_, ?_⟩
  · rw [key]
    simp [List.length_mapIdx]
  · rw [key]
  · intro j hj hne
    rw [key]
    simp only [List.getElem?_append, List.length_mapIdx, if_pos hj, List.getElem?_mapIdx]
    rw [List.getElem?_eq_getElem hj]
    simp [hne]
  · rw [key]
    simp only [List.getElem?_append, List.length_mapIdx, if_pos hidx, List.getElem?_mapIdx]
    rw [List.getElem?_eq_getElem hidx]
    simp
  · intro lastT hl
    rw [hlast0] at hl
    obtain rfl : lastT0 = lastT := by injection hl
    rw [key]
    exact List.getLast?_concat _
  · intro hcont j t hjt
    rw [key] at hjt
    simp only [List.getElem?_append, List.length_mapIdx] at hjt
    by_cases hjlen : j < details.terms.length
    · rw [if_pos hjlen, List.getElem?_mapIdx, List.getElem?_eq_getElem hjlen] at hjt
      have := hcont j details.terms[j] (List.getElem?_eq_getElem hjlen)
      rw [Option.map_some'] at hjt
      obtain rfl : (if j = termIdx
          then { details.terms[j] with skipped := true, status := InstallmentStatus.SKIPPED }
          else details.terms[j]) = t := by injection hjt
      split <;> simpa using this
    · rw [if_neg hjlen] at hjt
      by_cases hje : j = details.terms.length
      · subst hje
        simp only [Nat.sub_self, List.getElem?_cons_zero] at hjt
        obtain rfl : _ = t := by injection hjt
        simp
      · have : 1 ≤ j - details.terms.length := by omega
        rw [show j - details.terms.length = (j - details.terms.length - 1) + 1 by omega] at hjt
        simp at hjt

/-- Witness for C3: skipping term 1 of a concrete two-term monthly
installment yields three terms. -/
theorem C3_skip_appends_one_term_witness :
    (0 : Nat) <
      ([⟨1, ⟨2024, 1, 1, 0⟩, .NOT_STARTED, none, false, false, ""⟩,
        ⟨2, ⟨2024, 2, 1, 0⟩, .NOT_STARTED, none, false, false, ""⟩] : List InstallmentTerm).length ∧
    (handleSkipInstallmentTerm
      ⟨"i1", "e1", ⟨2024, 0, 1, 0⟩, .Monthly, 2, 50,
        [⟨1, ⟨2024, 1, 1, 0⟩, .NOT_STARTED, none, false, false, ""⟩,
         ⟨2, ⟨2024, 2, 1, 0⟩, .NOT_STARTED, none, false, false, ""⟩], ""⟩ 0).terms.length = 3 := by
  have h := C3_skip_appends_one_term
    ⟨"i1", "e1", ⟨2024, 0, 1, 0⟩, .Monthly, 2, 50,
      [⟨1, ⟨2024, 1, 1, 0⟩, .NOT_STARTED, none, false, false, ""⟩,
       ⟨2, ⟨2024, 2, 1, 0⟩, .NOT_STARTED, none, false, false, ""⟩], ""⟩ 0 (by decide)
  exact ⟨by decide, h.1⟩

theorem entryGetById_update (entries : List MockEntry) (eid : String)
    (r : ℚ) (st : PaymentStatus) :
    entryGetById (entryUpdateRemainingStatus entries eid r st) eid =
      (entryGetById entries eid).map
        (fun e => { e with amountRemaining := r, status := st }) := by
  unfold entryGetById entryUpdateRemainingStatus
  induction entries with
  | nil => rfl
  | cons a l ih =>
    rw [List.map_cons]
    by_cases h : (a.id == eid) = true
    · rw [if_pos h, List.find?_cons_of_pos _ (by exact h),
        @List.find?_cons_of_pos _ (fun e => e.id == eid) a l h]
      rfl
    · rw [if_neg h, List.find?_cons_of_neg _ (by exact h),
        @List.find?_cons_of_neg _ (fun e => e.id == eid) a l h]
      exact ih

theorem recomputedStatus_eq_claimStatus (b r : ℚ) (hr : 0 ≤ r) :
    (if r = 0 then PaymentStatus.PAID
     else if r < b then PaymentStatus.PARTIALLY_PAID
     else PaymentStatus.UNPAID) = claimStatus r b := by
  unfold claimStatus
  split_ifs with h1 h2 h3 h4 <;> try rfl
  · exact absurd ⟨lt_of_le_of_ne hr (Ne.symm h1), h2⟩ h3
  · exact absurd h4.2 h2

theorem invariantB_after_update (payments1 : List MockPayment)
    (entries : List MockEntry) (eid : String) (entry : MockEntry) (n : Nat)
    (t : ℚ) (hfind : entryGetById entries eid = some entry)
    (ht : t = totalPaymentsFor payments1 eid) :
    entryBalanceInvariantB
      ⟨payments1,
       entryUpdateRemainingStatus entries entry.id
         (max 0 (entry.amountBorrowed - t))
         (if max 0 (entry.amountBorrowed - t) = 0 then .PAID
          else if max 0 (entry.amountBorrowed - t) < entry.amountBorrowed then .PARTIALLY_PAID
          else .UNPAID),
       n⟩ eid = true := by
  have hid : entry.id = eid := by
    have := List.find?_some hfind
    simpa using this
  unfold entryBalanceInvariantB
  rw [hid, entryGetById_update, hfind, Option.map_some']
  simp only [Bool.and_eq_true, decide_eq_true_eq]
  subst ht
  exact ⟨rfl, recomputedStatus_eq_claimStatus _ _ (le_max_left 0 _)⟩

/-- C2: after any single payment creation or deletion applied to entry
`eid` — hence, by induction, after each operation of any sequence of
creations and deletions, in any order, starting from any store state —
the entry's `amountRemaining` equals `max 0 (amountBorrowed -
totalPayments)` over the payments currently recorded against it, and its
status is `PAID` when `amountRemaining = 0`, `PARTIALLY_PAID` when
`0 < amountRemaining < amountBorrowed`, and `UNPAID` otherwise. -/
theorem C2_balance_invariant (s : MockStore) (eid : String) (op : PaymentOp)
    (he : eid ≠ "") (hop : opTargetsEntry s op eid) :
    entryBalanceInvariantB (applyPaymentOp s op) eid = true := by
  cases op with
  | create entryId amount =>
    obtain rfl : entryId = eid := hop
    simp only [applyPaymentOp, paymentCreate]
    rw [if_pos he]
    cases hfind : entryGetById s.entries entryId with
    | none =>
      simp [entryBalanceInvariantB, hfind]
    | some entry =>
      exact invariantB_after_update _ _ _ _ _ _ hfind rfl
  | delete pid =>
    obtain ⟨idx, p, hidx, hp, hpe⟩ := hop
    simp only [applyPaymentOp, paymentDelete]
    simp only [hidx, hp, hpe]
    rw [if_pos he]
    cases hfind : entryGetById s.entries eid with
    | none =>
      simp [entryBalanceInvariantB, hfind]
    | some entry =>
      exact invariantB_after_update _ _ _ _ _ _ hfind rfl

/-- Witness for C2: a concrete creation of a payment of 40 against an
entry that borrowed 100 re-establishes the balance invariant. -/
theorem C2_balance_invariant_witness :
    ("e1" : String) ≠ "" ∧
    opTargetsEntry ⟨[], [⟨"e1", 100, 100, .UNPAID, none⟩], 1⟩ (.create "e1" 40) "e1" ∧
    entryBalanceInvariantB
      (applyPaymentOp ⟨[], [⟨"e1", 100, 100, .UNPAID, none⟩], 1⟩ (.create "e1" 40))
      "e1" = true :=
  ⟨by decide, rfl,
   C2_balance_invariant ⟨[], [⟨"e1", 100, 100, .UNPAID, none⟩], 1⟩ "e1"
     (.create "e1" 40) (by decide) rfl⟩

/-- C6 (code-bug evidence): the mock payment service's entry update passes
only `amountRemaining` and `status`.  Creating a payment of 100 against an
entry that borrowed 100 drives `amountRemaining` to 0 (status `PAID`), yet
`dateFullyPaid` stays unset; and deleting the only payment of a fully-paid
entry that carries `dateFullyPaid` makes `amountRemaining` positive again
while `dateFullyPaid` is not cleared — contradicting the form's own label
"This field is automatically set when all payments are completed". -/
theorem C6_dateFullyPaid_not_maintained :
    ((entryGetById
        (paymentCreate ⟨[], [⟨"e1", 100, 100, .UNPAID, none⟩], 1⟩ "e1" 100).entries
        "e1").map (fun e => (e.amountRemaining, e.status, e.dateFullyPaid)) =
      some (0, .PAID, none)) ∧
    ((entryGetById
        (paymentDelete
          ⟨[⟨1, "e1", 100⟩], [⟨"e1", 100, 0, .PAID, some ⟨2024, 0, 15, 0⟩⟩], 2⟩
          1).entries
        "e1").map (fun e => (e.amountRemaining, e.status, e.dateFullyPaid)) =
      some (100, .UNPAID, some ⟨2024, 0, 15, 0⟩)) := by
  constructor
  · norm_num [paymentCreate, entryGetById, entryUpdateRemainingStatus]
    rw [if_neg (by decide : ¬("e1" : String) = "")]
    exact ⟨_, rfl, rfl, rfl, rfl⟩
  · norm_num [paymentDelete, entryGetById, entryUpdateRemainingStatus]
    rw [if_neg (by decide : ¬("e1" : String) = "")]
    exact ⟨_, rfl, rfl, rfl, rfl⟩

/-- C5: for a payment against a group allocation with amount due `A` and
amount already paid `P` (so `maxPaymentAmount = A - P`), an entered amount
above `A - P` is never accepted: submission yields an error and no created
payment, whatever the other form inputs, and the input's `onChange` clamps
such a typed value down to `A - P`. -/
theorem C5_allocation_payment_cap (A P v : ℚ) (personId : String)
    (payeeFound : Bool) (maxAmount : Option ℚ) (hv : A - P < v) :
    (∀ amt, handleSubmitPayment ⟨personId, some v, some (A - P), maxAmount, payeeFound⟩ ≠
      .created amt) ∧
    clampAmountInput (some (A - P)) maxAmount v = A - P := by
  constructor
  · intro amt
    simp only [handleSubmitPayment]
    split_ifs <;> simp_all
  · simp only [clampAmountInput]
    rw [if_pos hv]

/-- Witness for C5: the claim's concrete allocation (`amount = 100`,
`amountPaid = 80`): a submitted payment of 25 is rejected and a typed 25
is clamped to 20. -/
theorem C5_allocation_payment_cap_witness :
    ((100 : ℚ) - 80 < 25) ∧
    handleSubmitPayment ⟨"1", some 25, some (100 - 80), none, true⟩ ≠ .created 25 ∧
    clampAmountInput (some ((100 : ℚ) - 80)) none 25 = 100 - 80 :=
  have h := C5_allocation_payment_cap 100 80 25 "1" true none (by norm_num)
  ⟨by norm_num, h.1 25, h.2⟩

/-- C10: for a payment not tied to a group allocation
(`maxPaymentAmount = none`), once the parent entry's `amountRemaining` has
been fetched into `maxAmount`, the same cap applies to it: submitting an
amount above `amountRemaining` is rejected with an error and no payment,
and typing one clamps the field to `amountRemaining`. -/
theorem C10_entry_remaining_cap (r v : ℚ) (personId : String)
    (payeeFound : Bool) (hv : r < v) :
    (∀ amt, handleSubmitPayment ⟨personId, some v, none, some r, payeeFound⟩ ≠
      .created amt) ∧
    clampAmountInput none (some r) v = r := by
  constructor
  · intro amt
    simp only [handleSubmitPayment]
    split_ifs <;> simp_all
  · simp only [clampAmountInput]
    rw [if_pos hv]

/-- Witness for C10: with `amountRemaining = 50` fetched, a submitted
payment of 60 is rejected and a typed 60 is clamped to 50. -/
theorem C10_entry_remaining_cap_witness :
    ((50 : ℚ) < 60) ∧
    handleSubmitPayment ⟨"1", some 60, none, some 50, true⟩ ≠ .created 60 ∧
    clampAmountInput none (some (50 : ℚ)) 60 = 50 :=
  have h := C10_entry_remaining_cap 50 60 "1" true (by norm_num)
  ⟨by norm_num, h.1 60, h.2⟩

theorem le_ceilCents (x : ℚ) : x ≤ ceilCents x := by
  unfold ceilCents
  rw [le_div_iff₀ (by norm_num : (0:ℚ) < 100)]
  exact Int.le_ceil _

theorem equalSplit_amounts_map (T : ℚ) (members : List Nat) :
    (equalSplitAllocations T members).map (fun a => a.amount) =
      List.replicate members.length (ceilCents (T / members.length)) := by
  simp only [equalSplitAllocations, List.map_map]
  rw [show ((fun a => AllocRow.amount a) ∘ fun m =>
      ({ groupMemberPersonId := m, amount := ceilCents (T / members.length),
         amountPaid := 0,
         percent := round2 (ceilCents (T / members.length) / T * 100),
         description := "", notes := "" } : AllocRow)) =
      fun _ => ceilCents (T / members.length) from rfl]
  exact List.map_const' _ _

/-- C4: for total `T > 0` and a nonempty member list, equal-split mode
gives every member the same `amount = ceil((T / n) * 100) / 100` and
`percent = round(amount / T * 100, 2)`; the sum of the amounts is never
below `T`; when `T` is a whole number of cents (`T * 100` an integer) the
sum exceeds `T` by at most `(n - 1)` cents; and for `T = 100` with three
members every amount and percent is `33.34`, the sum being `100.02`. -/
theorem C4_equal_split (T : ℚ) (members : List Nat) (hT : 0 < T)
    (hmem : members ≠ []) :
    (∀ a ∈ equalSplitAllocations T members,
        a.amount = ceilCents (T / members.length) ∧
        a.percent = round2 (ceilCents (T / members.length) / T * 100)) ∧
    T ≤ allocationsAmountSum (equalSplitAllocations T members) ∧
    (∀ K : ℤ, (K : ℚ) = T * 100 →
      allocationsAmountSum (equalSplitAllocations T members) - T ≤
        ((members.length : ℚ) - 1) / 100) ∧
    ((equalSplitAllocations 100 [1, 2, 3]).map (fun a => (a.amount, a.percent)) =
      [(33.34, 33.34), (33.34, 33.34), (33.34, 33.34)]) ∧
    allocationsAmountSum (equalSplitAllocations 100 [1, 2, 3]) = 100.02 := by
  have hn : 0 < (members.length : ℚ) := by
    have := List.length_pos.mpr hmem
    exact_mod_cast this
  have hsum : allocationsAmountSum (equalSplitAllocations T members) =
      (members.length : ℚ) * ceilCents (T / members.length) := by
    rw [allocationsAmountSum, equalSplit_amounts_map, List.sum_replicate, nsmul_eq_mul]
  have hceil2 : ceilCents ((100 : ℚ) / (([1, 2, 3] : List Nat).length : ℚ)) = 33.34 := by
    rw [ceilCents,
      show (100 : ℚ) / (([1, 2, 3] : List Nat).length : ℚ) * 100 = 10000 / 3 by
        norm_num,
      show (⌈(10000 : ℚ) / 3⌉ : ℤ) = 3334 from by
        rw [Int.ceil_eq_iff]; constructor <;> norm_num]
    norm_num
  have hpct : round2 ((33.34 : ℚ) / 100 * 100) = 33.34 := by
    rw [round2, show (33.34 : ℚ) / 100 * 100 * 100 = 3334 by norm_num,
      show round ((3334 : ℚ)) = 3334 from by norm_num [round_eq]]
    norm_num
  refine ⟨?_, ?_, ?_, ?_, ?_⟩
  · intro a ha
    simp only [equalSplitAllocations, List.mem_map] at ha
    obtain ⟨m, hm, rfl⟩ := ha
    exact ⟨rfl, rfl⟩
  · rw [hsum]
    have h1 : T / members.length ≤ ceilCents (T / members.length) := le_ceilCents _
    calc T = (members.length : ℚ) * (T / members.length) := by field_simp
    _ ≤ (members.length : ℚ) * ceilCents (T / members.length) :=
        mul_le_mul_of_nonneg_left h1 (le_of_lt hn)
  · intro K hK
    rw [hsum]
    have hceq : T / (members.length : ℚ) * 100 = (K : ℚ) / members.length := by
      rw [hK]; ring
    have hlt : ((⌈T / (members.length : ℚ) * 100⌉ : ℤ) : ℚ) <
        (K : ℚ) / members.length + 1 := by
      rw [← hceq]; exact Int.ceil_lt_add_one _
    have h2 : ((⌈T / (members.length : ℚ) * 100⌉ : ℤ) : ℚ) * members.length <
        (K : ℚ) + members.length := by
      have hm2 := mul_lt_mul_of_pos_right hlt hn
      calc ((⌈T / (members.length : ℚ) * 100⌉ : ℤ) : ℚ) * members.length <
          ((K : ℚ) / members.length + 1) * members.length := hm2
      _ = (K : ℚ) + members.length := by field_simp
    have h3 : (⌈T / (members.length : ℚ) * 100⌉ * members.length : ℤ) <
        K + members.length := by exact_mod_cast h2
    have h4 : (⌈T / (members.length : ℚ) * 100⌉ * members.length : ℤ) ≤
        K + members.length - 1 := by omega
    have h5 : ((⌈T / (members.length : ℚ) * 100⌉ : ℤ) : ℚ) * members.length ≤
        (K : ℚ) + members.length - 1 := by exact_mod_cast h4
    have hTK : T = (K : ℚ) / 100 := by rw [hK]; ring
    rw [ceilCents]
    ring_nf
    ring_nf at h5
    linarith [hTK]
  · simp only [equalSplitAllocations, List.map_cons, List.map_nil]
    rw [hceil2, hpct]
  · rw [allocationsAmountSum, equalSplit_amounts_map, List.sum_replicate, nsmul_eq_mul]
    rw [hceil2]
    norm_num

/-- Witness for C4 at the claim's concrete input: total 100 split equally
among three members sums to 100.02. -/
theorem C4_equal_split_witness :
    (0 : ℚ) < 100 ∧ ([1, 2, 3] : List Nat) ≠ [] ∧
    allocationsAmountSum (equalSplitAllocations 100 [1, 2, 3]) = 100.02 :=
  have h := C4_equal_split 100 [1, 2, 3] (by norm_num) (by decide)
  ⟨by norm_num, by decide, h.2.2.2.2⟩

/-- C8: in the group allocation editor, editing member `i`'s percent sets
only that row's percent (to the typed value) and amount (to
`round(total × percent / 100, 2)`), and editing member `i`'s amount sets
only that row's amount and percent (`round(amount / total × 100, 2)` when
`total > 0`, else 0); every other row — amount, percent, description and
notes — is returned unchanged, and row `i`'s remaining fields are kept.
Setting a percent of 50 with `amountBorrowed = 200` yields amount 100. -/
theorem C8_member_edit_frame (allocs : List AllocRow) (i : Nat) (v T : ℚ)
    (hi : i < allocs.length) :
    ((editMemberPercent allocs i v T)[i]? = (allocs[i]?).map
      (fun a => { a with percent := v, amount := round2 (T * (v / 100)) })) ∧
    (∀ j, j ≠ i → (editMemberPercent allocs i v T)[j]? = allocs[j]?) ∧
    ((editMemberAmount allocs i v T)[i]? = (allocs[i]?).map
      (fun a => { a with amount := v, percent := (if 0 < T then round2 (v / T * 100) else 0) })) ∧
    (∀ j, j ≠ i → (editMemberAmount allocs i v T)[j]? = allocs[j]?) ∧
    round2 ((200 : ℚ) * (50 / 100)) = 100 := by
  refine ⟨?_, ?_, ?_, ?_, ?_⟩
  · simp only [editMemberPercent, List.getElem?_mapIdx]
    cases allocs[i]? <;> simp
  · intro j hj
    simp only [editMemberPercent, List.getElem?_mapIdx]
    cases allocs[j]? <;> simp [hj]
  · simp only [editMemberAmount, List.getElem?_mapIdx]
    cases allocs[i]? <;> simp
  · intro j hj
    simp only [editMemberAmount, List.getElem?_mapIdx]
    cases allocs[j]? <;> simp [hj]
  · rw [round2, show (200 : ℚ) * (50 / 100) * 100 = 10000 by norm_num,
      show round ((10000 : ℚ)) = 10000 from by norm_num [round_eq]]
    norm_num

/-- Witness for C8: editing the percent of the only member of a concrete
allocation list to 50 with total 200 sets that member's amount to 100. -/
theorem C8_member_edit_frame_witness :
    (0 : Nat) < ([⟨7, 0, 0, 0, "", ""⟩] : List AllocRow).length ∧
    (editMemberPercent [⟨7, 0, 0, 0, "", ""⟩] 0 50 200).map (fun a => a.amount) =
      [100] := by
  have h := C8_member_edit_frame [⟨7, 0, 0, 0, "", ""⟩] 0 50 200 (by decide)
  have hv := h.2.2.2.2
  refine ⟨by decide, ?_⟩
  simp [editMemberPercent, hv]

/-- C9: in the edit form (`isEditing = true`) of an entry against which at
least one payment exists (`hasPayments = true`, passed as
`payments.length > 0`), the monetary and schedule-defining controls —
amount borrowed, transaction type, borrower, payment terms, payment
frequency, installment start date, allocation mode — are all disabled, so
no change to them can be made through the form regardless of the other
fields, while the descriptive controls — name, description, notes and the
user-set date borrowed — remain editable. -/
theorem C9_field_lock :
    ([EntryFormField.amountBorrowed, .transactionType, .borrower, .paymentTerms,
      .paymentFrequency, .installmentStartDate, .allocationMode].all
        (entryFieldDisabled true true)) = true ∧
    ([EntryFormField.entryName, .description, .notes, .dateBorrowed].all
        (fun f => !(entryFieldDisabled true true f))) = true := by decide
